import Mathlib

/-!
Shallow embedding of src/Dataverse_to_Bronze_fst_chemical.py (a Dataverse →
bronze ingestion notebook) and proofs about it.

Modelling conventions:
* Python dicts become association lists (List (String × _)); dict.get with a
  default becomes Option.getD.
* HTTP traffic is modelled by pure oracles: dataverse_get receives the
  sequence of responses its attempts would observe, fetch_all receives the
  chain of page bodies its successive requests would return.
* Raising an exception becomes returning a distinguished constructor of a
  result type; time.sleep becomes recording the slept duration (in seconds)
  in a list.
* Machine floats only appear as the backoff durations min(30.0, 1.0 * 2^(a-1)),
  which are exact small integers, so they are modelled as Nat seconds.
-/

namespace Dataverse

/-- Scalar cell of a materialized table after pandas astype("string"):
either a textual value or a null (NaN / NA / missing). -/
abbrev Cell := Option String

/-- JSON value as returned by the Dataverse Web API for one field:
a scalar (modelled as text / integer / boolean / null) or a nested object.
Arrays do not occur in the claims and are omitted. -/
inductive JVal where
  | s (v : String)
  | i (v : Int)
  | b (v : Bool)
  | null
  | o (fields : List (String × JVal))

/-- Record: one entity instance, a JSON object (mapping field name to value). -/
abbrev Rec := List (String × JVal)

/-- Parsed JSON body of one OData page response: the optional value array
(data.get("value", []) in fetch_all) and the optional continuation link
(data.get("@odata.nextLink")). A missing key is modelled as none. -/
structure PageBody where
  value : Option (List Rec)
  nextLink : Option String

/-- Python truthiness of the continuation link in the fetch_all loop
(if not next_link: break): a missing link and the empty string are falsy. -/
def linkFalsy : Option String → Bool
  | none => true
  | some l => l = ""

/-- Embedding of fetch_all (source lines 157-166), specialized to the chain of
page bodies that its successive requests return: the first list element is the
body answering the initial entity-set URL, and each later element is the body
behind the previous element's continuation link. Returns the records yielded
(in order) together with the number of page requests issued. The loop stops
after a page whose continuation link is missing or falsy; it can also run out
of pages, which corresponds to a chain that was given too short. -/
def fetch_all : List PageBody → List Rec × Nat
  | [] => ([], 0)
  | p :: rest =>
    let rows := p.value.getD []
    if linkFalsy p.nextLink then
      (rows, 1)
    else
      let r := fetch_all rest
      (rows ++ r.1, r.2 + 1)

/-- HTTP response as seen by dataverse_get: status code, parsed JSON body when
the body is valid JSON (r.json() raises otherwise, modelled by none), and the
raw text. The body type is a parameter: PageBody for pagination, arbitrary
elsewhere. -/
structure HttpResp (β : Type) where
  status : Nat
  json : Option β
  text : String

/-- Statuses the retry loop treats as transient:
r.status_code in (429,500,502,503,504) (source line 140). -/
def retryable (status : Nat) : Bool :=
  status = 429 ∨ status = 500 ∨ status = 502 ∨ status = 503 ∨ status = 504

/-- Backoff slept before continuing after a transient failure on attempt a:
min(cap, base*(2**(attempt-1))) seconds with base = 1.0, cap = 30.0
(source lines 131-133). Exact on integers, so modelled in Nat. -/
def backoff (attempt : Nat) : Nat :=
  min 30 (2 ^ (attempt - 1))

/-- Outcome of dataverse_get. ok: returned r.json() of a 200 response.
decodeError: a 200 response whose body failed to parse (r.json() raised).
fatal: the immediate raise on a non-retryable non-200 status, carrying the
status and the parsed body when parseable, otherwise the raw text.
exhausted: the final raise after the attempt loop ran out. -/
inductive GetResult (β : Type) where
  | ok (body : β)
  | decodeError
  | fatal (status : Nat) (details : β ⊕ String)
  | exhausted

/-- Observable behaviour of one dataverse_get call: its result, the backoff
sleeps performed (in seconds, in order), and how many HTTP attempts it made. -/
structure GetOutcome (β : Type) where
  result : GetResult β
  sleeps : List Nat
  attempts : Nat

/-- An attempt loop of dataverse_get (source lines 135-147) starting at attempt
number a with fuel remaining attempts. resp gives the response the server
returns to attempt number a. -/
def dataverseGetAux (resp : Nat → HttpResp β) (a : Nat) : Nat → GetOutcome β
  | 0 => ⟨.exhausted, [], 0⟩
  | fuel + 1 =>
    let r := resp a
    if r.status = 200 then
      match r.json with
      | some body => ⟨.ok body, [], 1⟩
      | none => ⟨.decodeError, [], 1⟩
    else if retryable r.status then
      let rest := dataverseGetAux resp (a + 1) fuel
      ⟨rest.result, backoff a :: rest.sleeps, rest.attempts + 1⟩
    else
      match r.json with
      | some body => ⟨.fatal r.status (.inl body), [], 1⟩
      | none => ⟨.fatal r.status (.inr r.text), [], 1⟩

/-- Embedding of dataverse_get (source lines 135-147): attempts run from 1 to
max_retries inclusive. -/
def dataverse_get (resp : Nat → HttpResp β) (max_retries : Nat) : GetOutcome β :=
  dataverseGetAux resp 1 max_retries

/-- Dotted column name produced by pandas json_normalize when flattening a
nested object: the parent path joined to the key with the default separator. -/
def keyJoin (pre k : String) : String :=
  if pre = "" then k else pre ++ "." ++ k

/-- Textual coercion applied by astype("string") to one scalar value:
JSON null (pandas None) becomes NA (modelled none); other scalars become their
Python string form. -/
def coerceScalar : JVal → Option Cell
  | .s v => some (some v)
  | .i v => some (some (toString v))
  | .b v => some (some (if v then "True" else "False"))
  | .null => some none
  | .o _ => none

/-- Flattening step of pd.json_normalize on one record: nested objects are
recursively flattened into dotted column names, scalars become cells (already
coerced to text as astype("string") does). pre is the dotted path so far. -/
def flattenObj (pre : String) : List (String × JVal) → List (String × Cell)
  | [] => []
  | (k, .o fs) :: rest => flattenObj (keyJoin pre k) fs ++ flattenObj pre rest
  | (k, v) :: rest =>
    match coerceScalar v with
    | some c => (keyJoin pre k, c) :: flattenObj pre rest
    | none => flattenObj pre rest

/-- Flattened field names of one record: the dotted column names
pd.json_normalize derives from it. -/
def flatKeys (r : Rec) : List String :=
  (flattenObj "" r).map Prod.fst

/-- Materialized table: a fixed ordered column list and rows of cells, one cell
per column. Models both the pandas DataFrame and the Spark DataFrame built from
it (all columns are string-typed after astype("string")). -/
structure Table where
  cols : List String
  rows : List (List Cell)
deriving DecidableEq

/-- Append a column name if it is not already present, keeping first-appearance
order (how pandas accumulates columns over a list of dicts, and how Spark
unionByName appends the right side's extra columns). -/
def insertCol (cols : List String) (c : String) : List String :=
  if c ∈ cols then cols else cols ++ [c]

/-- Union of an existing column list with a list of new names, preserving
first-appearance order. -/
def colUnion (cols : List String) (ks : List String) : List String :=
  ks.foldl insertCol cols

/-- First-match lookup in an association list, as a Python dict read
(keys are unique in a dict, so the first match is the only one). -/
def alookup (c : String) : List (String × α) → Option α
  | [] => none
  | (k, v) :: rest => if k = c then some v else alookup c rest

/-- Embedding of pd.json_normalize(records).astype("string") (source lines 181
and 187): flattens every record, takes the union of the flattened field names
in first-appearance order as the columns, and gives each record one row, with
NA (none) in every column the record does not supply. -/
def jsonNormalize (records : List Rec) : Table :=
  let flat := records.map (flattenObj "")
  let cols := flat.foldl (fun acc r => colUnion acc (r.map Prod.fst)) []
  ⟨cols, flat.map (fun r => cols.map (fun c => (alookup c r).join))⟩

/-- Embedding of sdf.unionByName(sdf2, allowMissingColumns=True) (source line
189): the result's columns are the left side's followed by the right side's
extras; every row of either side is realigned to that column list by column
name, null-filled (none) on the columns its side lacks. -/
def unionByName (t u : Table) : Table :=
  let cols := colUnion t.cols u.cols
  let reRow := fun (orig : List String) (row : List Cell) =>
    cols.map (fun c => (alookup c (orig.zip row)).join)
  ⟨cols, t.rows.map (reRow t.cols) ++ u.rows.map (reRow u.cols)⟩

/-- Sampling loop of dataverse_to_spark (source lines 172-177): appends stream
records to the sample and breaks as soon as len(sample) >= sample_rows holds
after an append. len is the current length of the sample. -/
def sampleLoop (sample_rows : Nat) : List Rec → Nat → List Rec
  | [], _ => []
  | r :: rest, len =>
    if sample_rows ≤ len + 1 then [r] else r :: sampleLoop sample_rows rest (len + 1)

/-- Embedding of dataverse_to_spark (source lines 170-190). stream is the
record stream fetch_all yields for the entity set; fetch_all re-issues all
requests from the beginning each time it is called, so the second call on
source line 185 produces the same full stream again (not the remainder of the
sampling iterator, which is discarded): rest below is the whole stream.
If the sample is empty the function returns the empty schemaless DataFrame
(source lines 178-179); otherwise it normalizes the sample, and when rest is
non-empty normalizes it too and merges by unionByName. -/
def dataverse_to_spark (stream : List Rec) (sample_rows : Nat) : Table :=
  let sample := sampleLoop sample_rows stream 0
  if sample.isEmpty then ⟨[], []⟩
  else
    let sdf := jsonNormalize sample
    let rest := stream
    if rest.isEmpty then sdf
    else unionByName sdf (jsonNormalize rest)

/-- Secret-store keys read by get_cfg, in source order (lines 60-64). -/
def secretKeys : List String :=
  ["dataverse-client-id", "dataverse-client-secret", "dataverse-tenant-id", "dataverse-url"]

/-- Widget names read by get_cfg, in source order (lines 70-73). -/
def widgetNames : List String :=
  ["client_id", "client_secret", "tenant_id", "dataverse_url"]

/-- Python x or y on a secret lookup result: a lookup that raised (none) and an
empty string both fall back to the widget value. -/
def orWidget (v : Option String) (w : String) : String :=
  match v with
  | none => w
  | some s => if s = "" then w else s

/-- Embedding of get_cfg (source lines 58-78). secrets models
dbutils.secrets.get in the configured scope: none means the lookup raises
(e.g. the key is absent). widgets models widgets.get, which always returns a
string (possibly empty). The outer try of the source wraps the client-id,
client-secret and tenant-id lookups, so if any of the three raises, all four
values (the url included) are set to None; the url lookup has its own inner
try. Each value then falls back to its widget when falsy, and the function
raises ValueError listing every field whose final value is falsy. -/
def get_cfg (secrets : String → Option String) (widgets : String → String) :
    Except (List String) (String × String × String × String) :=
  let core :=
    match secrets "dataverse-client-id", secrets "dataverse-client-secret",
          secrets "dataverse-tenant-id" with
    | some c, some s, some t => some (c, s, t, secrets "dataverse-url")
    | _, _, _ => none
  let quad :=
    match core with
    | some (c, s, t, u) => (some c, some s, some t, u)
    | none => (none, none, none, none)
  let cid := orWidget quad.1 (widgets "client_id")
  let csec := orWidget quad.2.1 (widgets "client_secret")
  let tid := orWidget quad.2.2.1 (widgets "tenant_id")
  let url := orWidget quad.2.2.2 (widgets "dataverse_url")
  let missing :=
    (if cid = "" then ["client_id"] else []) ++
    (if csec = "" then ["client_secret"] else []) ++
    (if tid = "" then ["tenant_id"] else []) ++
    (if url = "" then ["dataverse_url"] else [])
  if missing = [] then .ok (cid, csec, tid, url) else .error missing

/-- Token result returned by an MSAL acquisition call: a JSON object mapping
field names to strings (the access token, or error diagnostics). -/
structure TokenResult where
  fields : List (String × String)

/-- Embedding of get_access_token (source lines 96-108). silent models
acquire_token_silent: none when it returns None (cache miss). forClient models
acquire_token_for_client's result. Python falsiness of the silent result
(if not result) also treats an empty dict as a miss. The function raises
(error) carrying the raw result when it lacks an access_token field, and
otherwise returns the token string. -/
def get_access_token (silent : Option TokenResult) (forClient : TokenResult) :
    Except TokenResult String :=
  let result :=
    match silent with
    | none => forClient
    | some r => if r.fields = [] then forClient else r
  match alookup "access_token" result.fields with
  | some t => .ok t
  | none => .error result

/-- Final token result get_access_token inspects: the silent result when it is
truthy, otherwise the client-credentials exchange result. Named separately so
theorems can say which acquisition supplied the token. -/
def usedResult (silent : Option TokenResult) (forClient : TokenResult) : TokenResult :=
  match silent with
  | none => forClient
  | some r => if r.fields = [] then forClient else r

/-- Modelled from the spec wording of the configuration claim: a required value
is supplied by the secret store when its lookup succeeds with a non-empty
string. -/
def secretSupplied (secrets : String → Option String) (k : String) : Bool :=
  match secrets k with
  | none => false
  | some v => v ≠ ""

/-- Modelled from the spec wording of the configuration claim: a required value
is supplied when the secret store or the widget fallback provides it. f pairs
the secret key with the widget name of one field. -/
def suppliedEither (secrets : String → Option String) (widgets : String → String)
    (f : String × String) : Bool :=
  secretSupplied secrets f.1 || widgets f.2 ≠ ""

/-- Four required configuration fields as (secret key, widget name) pairs. -/
def cfgFields : List (String × String) := secretKeys.zip widgetNames

/-- True when the secret store supplies (without raising) all three core keys
that get_cfg reads inside its outer try block. -/
def coreSecretsPresent (secrets : String → Option String) : Bool :=
  (secrets "dataverse-client-id").isSome && (secrets "dataverse-client-secret").isSome &&
    (secrets "dataverse-tenant-id").isSome

/-- Per-field resolution get_cfg actually performs: a field takes its
secret-store value (with widget fallback on empty) only when the store supplies
all three core keys; otherwise every field falls back to its widget. -/
def resolveCfg (secrets : String → Option String) (widgets : String → String)
    (sk wk : String) : String :=
  if coreSecretsPresent secrets then orWidget (secrets sk) (widgets wk) else widgets wk

/-- Fields whose resolved value is empty, in the order get_cfg reports them. -/
def cfgMissing (secrets : String → Option String) (widgets : String → String) :
    List String :=
  (if resolveCfg secrets widgets "dataverse-client-id" "client_id" = "" then
    ["client_id"] else []) ++
  (if resolveCfg secrets widgets "dataverse-client-secret" "client_secret" = "" then
    ["client_secret"] else []) ++
  (if resolveCfg secrets widgets "dataverse-tenant-id" "tenant_id" = "" then
    ["tenant_id"] else []) ++
  (if resolveCfg secrets widgets "dataverse-url" "dataverse_url" = "" then
    ["dataverse_url"] else [])

/-! Theorems. -/

/-- A retryable status is never 200. -/
theorem retryable_ne_200 {s : Nat} (h : retryable s = true) : s ≠ 200 := by
  intro hs
  subst hs
  exact absurd h (by decide)

/-- C6: for the empty record stream, dataverse_to_spark returns an empty table
with zero rows and no columns (the schemaless-DataFrame branch), raising no
error. -/
theorem dataverse_to_spark_empty (sample_rows : Nat) :
    (dataverse_to_spark [] sample_rows).rows = [] ∧
    (dataverse_to_spark [] sample_rows).cols = [] :=
  ⟨rfl, rfl⟩

/-- C1 (failing-input evaluation): a stream holding exactly one record comes
out of dataverse_to_spark as a table with two rows, because the second
fetch_all call on source line 185 restarts the stream from the beginning
instead of continuing the sampling iterator, so the sampled record is ingested
twice. The claimed row-count invariant (rows = records) is violated. -/
theorem dataverse_to_spark_duplicates_single_record :
    ([[("a", JVal.s "1")]] : List Rec).length = 1 ∧
    (dataverse_to_spark [[("a", JVal.s "1")]] 1000).rows.length = 2 := by
  refine ⟨rfl, ?_⟩
  simp [dataverse_to_spark, sampleLoop, jsonNormalize, flattenObj, keyJoin, coerceScalar,
    colUnion, insertCol, alookup, unionByName]

/-- C2 (failing-input evaluation): with sample_rows = 1 and the two-record
stream [r1, r2], the sample is [r1] and the remainder of that stream is [r2],
but the second batch the code builds is the whole re-fetched stream [r1, r2]:
the result has three rows and the sampled record's row appears twice, where
merging the true remainder would have produced the two rows [r1, r2]. -/
theorem dataverse_to_spark_second_batch_restarts :
    dataverse_to_spark [[("a", JVal.s "1")], [("b", JVal.s "2")]] 1 =
      ⟨["a", "b"], [[some "1", none], [some "1", none], [none, some "2"]]⟩ := by
  simp [dataverse_to_spark, sampleLoop, jsonNormalize, flattenObj, keyJoin, coerceScalar,
    colUnion, insertCol, alookup, unionByName]

/-- C10: a page body without a value key contributes no records and raises
nothing (dict.get supplies the empty default), and a missing or empty-string
continuation link terminates the pagination loop right after that page's
single request, whatever pages might lie beyond. -/
theorem fetch_all_missing_value_safe (p : PageBody) (rest : List PageBody) :
    (p.value = none → linkFalsy p.nextLink = true → fetch_all (p :: rest) = ([], 1))
    ∧ (p.value = none → linkFalsy p.nextLink = false →
        fetch_all (p :: rest) = ((fetch_all rest).1, (fetch_all rest).2 + 1))
    ∧ (linkFalsy p.nextLink = true → fetch_all (p :: rest) = (p.value.getD [], 1)) := by
  refine ⟨?_, ?_, ?_⟩
  · intro hv hl
    simp [fetch_all, hv, hl]
  · intro hv hl
    simp [fetch_all, hv, hl]
  · intro hl
    simp [fetch_all, hl]

/-- C10 witness: a concrete page with no value key and no continuation link
yields no records and stops after one request, even with further pages
present. -/
theorem fetch_all_missing_value_safe_witness :
    fetch_all [⟨none, none⟩, ⟨some [[("b", JVal.s "2")]], none⟩] = ([], 1) :=
  (fetch_all_missing_value_safe ⟨none, none⟩ [⟨some [[("b", JVal.s "2")]], none⟩]).1 rfl rfl

/-- C5: on a response whose status is neither 200 nor retryable, dataverse_get
raises immediately after exactly one attempt with no backoff sleep, carrying
the parsed JSON body when the body parses and the raw text otherwise. -/
theorem dataverse_get_fatal (resp : Nat → HttpResp β) (m : Nat) (hm : 1 ≤ m)
    (h200 : (resp 1).status ≠ 200) (hr : retryable ((resp 1).status) = false) :
    dataverse_get resp m =
      ⟨.fatal (resp 1).status
        (match (resp 1).json with
          | some body => Sum.inl body
          | none => Sum.inr (resp 1).text), [], 1⟩ := by
  obtain ⟨m', rfl⟩ : ∃ m', m = m' + 1 := ⟨m - 1, by omega⟩
  rcases hj : (resp 1).json with _ | body <;>
    simp [dataverse_get, dataverseGetAux, h200, hr, hj]

/-- C5 witness: a 404 response with a parseable JSON body fails at once, after
one attempt and zero sleeps, with the body attached. -/
theorem dataverse_get_fatal_witness :
    dataverse_get (fun _ => (⟨404, some 9, "not found"⟩ : HttpResp Nat)) 5 =
      ⟨.fatal 404 (Sum.inl 9), [], 1⟩ :=
  dataverse_get_fatal (fun _ => (⟨404, some 9, "not found"⟩ : HttpResp Nat)) 5
    (by decide) (by decide) (by decide)

/-- Attempt loop behaviour when every attempt it can make hits a retryable
status: it sleeps the exponential backoff after each attempt and ends
exhausted, having used all its fuel. -/
theorem dataverseGetAux_exhaust (resp : Nat → HttpResp β) :
    ∀ m a, (∀ j, a ≤ j → j < a + m → retryable ((resp j).status) = true) →
    dataverseGetAux resp a m =
      ⟨.exhausted, (List.range m).map (fun i => backoff (a + i)), m⟩ := by
  intro m
  induction m with
  | zero =>
    intro a _
    simp [dataverseGetAux]
  | succ n ih =>
    intro a h
    have hra : retryable ((resp a).status) = true := h a le_rfl (by omega)
    have h200 : (resp a).status ≠ 200 := retryable_ne_200 hra
    have ihh := ih (a + 1) (fun j hj1 hj2 => h j (by omega) (by omega))
    have hrange : (List.range (n + 1)).map (fun i => backoff (a + i)) =
        backoff a :: (List.range n).map (fun i => backoff (a + 1 + i)) := by
      rw [List.range_succ_eq_map, List.map_cons, List.map_map]
      congr 1
      exact List.map_congr_left fun i _ => by
        simp only [Function.comp_apply]
        congr 1
        omega
    simp [dataverseGetAux, h200, hra, ihh, hrange]

/-- Attempt loop behaviour when k retryable responses precede a parseable 200:
it returns the parsed body of that first 200, slept the backoffs of the k
failed attempts, and made k + 1 attempts. -/
theorem dataverseGetAux_ok (resp : Nat → HttpResp β) (b : β) :
    ∀ k a m, (∀ j, a ≤ j → j < a + k → retryable ((resp j).status) = true) →
    k < m → (resp (a + k)).status = 200 → (resp (a + k)).json = some b →
    dataverseGetAux resp a m =
      ⟨.ok b, (List.range k).map (fun i => backoff (a + i)), k + 1⟩ := by
  intro k
  induction k with
  | zero =>
    intro a m _ hk h200 hj
    obtain ⟨m', rfl⟩ : ∃ m', m = m' + 1 := ⟨m - 1, by omega⟩
    simp only [Nat.add_zero] at h200 hj
    simp [dataverseGetAux, h200, hj]
  | succ n ih =>
    intro a m h hk h200 hj
    obtain ⟨m', rfl⟩ : ∃ m', m = m' + 1 := ⟨m - 1, by omega⟩
    have hra : retryable ((resp a).status) = true := h a le_rfl (by omega)
    have ha200 : (resp a).status ≠ 200 := retryable_ne_200 hra
    have hshift : a + 1 + n = a + (n + 1) := by omega
    have ihh := ih (a + 1) m' (fun j hj1 hj2 => h j (by omega) (by omega)) (by omega)
      (by rw [hshift]; exact h200) (by rw [hshift]; exact hj)
    have hrange : (List.range (n + 1)).map (fun i => backoff (a + i)) =
        backoff a :: (List.range n).map (fun i => backoff (a + 1 + i)) := by
      rw [List.range_succ_eq_map, List.map_cons, List.map_map]
      congr 1
      exact List.map_congr_left fun i _ => by
        simp only [Function.comp_apply]
        congr 1
        omega
    simp [dataverseGetAux, ha200, hra, ihh, hrange]

/-- C4: dataverse_get retries exactly on the transient statuses, sleeping
min(30, 2^(attempt-1)) seconds after the attempt numbered a (so 1s, 2s, 4s,
8s, 16s for attempts 1..5, capped at 30s); it returns the parsed JSON body of
the first 200 response, and when all max_retries attempts hit retryable
non-200 statuses it raises the retries-exceeded error having made exactly
max_retries attempts. -/
theorem dataverse_get_retry_policy (resp : Nat → HttpResp β) (m : Nat) :
    ((∀ j, 1 ≤ j → j ≤ m → retryable ((resp j).status) = true) →
      dataverse_get resp m =
        ⟨.exhausted, (List.range m).map (fun i => backoff (1 + i)), m⟩)
    ∧ (∀ k b, (∀ j, 1 ≤ j → j ≤ k → retryable ((resp j).status) = true) → k < m →
      (resp (k + 1)).status = 200 → (resp (k + 1)).json = some b →
      dataverse_get resp m =
        ⟨.ok b, (List.range k).map (fun i => backoff (1 + i)), k + 1⟩) := by
  constructor
  · intro h
    exact dataverseGetAux_exhaust resp m 1 (fun j hj1 hj2 => h j hj1 (by omega))
  · intro k b h hk h200 hj
    have hshift : 1 + k = k + 1 := by omega
    exact dataverseGetAux_ok resp b k 1 m (fun j hj1 hj2 => h j hj1 (by omega)) hk
      (by rw [hshift]; exact h200) (by rw [hshift]; exact hj)

/-- C4 witness: five consecutive 503 responses exhaust max_retries = 5 after
exactly 5 attempts with sleeps 1, 2, 4, 8, 16 seconds; and with 503 on the
first two attempts and a 200 on the third, the call returns that body after 3
attempts, having slept 1 and 2 seconds. -/
theorem dataverse_get_retry_policy_witness :
    dataverse_get (fun _ => (⟨503, none, "unavailable"⟩ : HttpResp Nat)) 5 =
      ⟨.exhausted, [1, 2, 4, 8, 16], 5⟩
    ∧ dataverse_get
        (fun j => if j ≤ 2 then (⟨503, none, "unavailable"⟩ : HttpResp Nat)
          else ⟨200, some 7, "ok"⟩) 5 =
      ⟨.ok 7, [1, 2], 3⟩ := by
  constructor
  · have h := (dataverse_get_retry_policy
        (fun _ => (⟨503, none, "unavailable"⟩ : HttpResp Nat)) 5).1
      (fun j _ _ => by decide)
    have hmap : (List.range 5).map (fun i => backoff (1 + i)) = [1, 2, 4, 8, 16] := by decide
    rw [hmap] at h
    exact h
  · have h := (dataverse_get_retry_policy
        (fun j => if j ≤ 2 then (⟨503, none, "unavailable"⟩ : HttpResp Nat)
          else ⟨200, some 7, "ok"⟩) 5).2 2 7
      (fun j hj1 hj2 => by
        have hif : j ≤ 2 := hj2
        simp only [hif, if_true]
        decide)
      (by decide) (by decide) (by decide)
    have hmap : (List.range 2).map (fun i => backoff (1 + i)) = [1, 2] := by decide
    rw [hmap] at h
    exact h

/-- C3: over a finite chain of pages P1..Pn in which every page but the last
carries a non-empty continuation link to its successor and the last carries
none (and each page request answers 200 at once, so one request per page),
fetch_all yields exactly the concatenation of the pages' value arrays in order
and issues exactly n requests. -/
theorem fetch_all_paginates (ps : List PageBody) (hne : ps ≠ [])
    (hmid : ∀ p ∈ ps.dropLast, ∃ l, p.nextLink = some l ∧ l ≠ "")
    (hlast : (ps.getLast hne).nextLink = none) :
    fetch_all ps = ((ps.map (fun p => p.value.getD [])).flatten, ps.length) := by
  induction ps with
  | nil => exact absurd rfl hne
  | cons p rest ih =>
    cases rest with
    | nil =>
      have hp : p.nextLink = none := hlast
      simp [fetch_all, hp, linkFalsy]
    | cons q rest' =>
      obtain ⟨l, hl, hlne⟩ := hmid p (by simp)
      have hfalsy : linkFalsy p.nextLink = false := by
        simp [linkFalsy, hl, hlne]
      have hne' : q :: rest' ≠ [] := by simp
      have hmid' : ∀ p' ∈ (q :: rest').dropLast, ∃ l', p'.nextLink = some l' ∧ l' ≠ "" := by
        intro p' hp'
        refine hmid p' ?_
        rw [List.dropLast_cons₂]
        exact List.mem_cons_of_mem p hp'
      have hlast' : ((q :: rest').getLast hne').nextLink = none := by
        rw [← List.getLast_cons hne']
        exact hlast
      have ihh := ih hne' hmid' hlast'
      have step : fetch_all (p :: q :: rest') =
          (p.value.getD [] ++ (fetch_all (q :: rest')).1, (fetch_all (q :: rest')).2 + 1) := by
        rw [fetch_all]
        simp [hfalsy]
      rw [step, ihh]
      simp

/-- C3 witness: a two-page chain (the first page linking to the second, the
second with no link) yields the two value arrays concatenated in order with
exactly two requests. -/
theorem fetch_all_paginates_witness :
    fetch_all
      [⟨some [[("a", JVal.s "1")]], some "next"⟩, ⟨some [[("b", JVal.s "2")]], none⟩] =
      ([[("a", JVal.s "1")], [("b", JVal.s "2")]], 2) := by
  have h := fetch_all_paginates
    [⟨some [[("a", JVal.s "1")]], some "next"⟩, ⟨some [[("b", JVal.s "2")]], none⟩]
    (by simp)
    (by
      intro p hp
      simp only [List.dropLast_cons₂, List.dropLast_single, List.mem_singleton] at hp
      subst hp
      exact ⟨"next", rfl, by decide⟩)
    rfl
  simpa using h

/-- C9: get_access_token inspects the silent result when that is truthy and
the client-credentials result otherwise (so the full exchange matters only on
a silent miss); it fails exactly when the inspected result lacks an
access_token field, the error carrying that raw result, and otherwise returns
the access_token value. -/
theorem get_access_token_spec (silent : Option TokenResult) (forClient : TokenResult) :
    ((∃ e, get_access_token silent forClient = .error e) ↔
      alookup "access_token" (usedResult silent forClient).fields = none)
    ∧ (∀ e, get_access_token silent forClient = .error e → e = usedResult silent forClient)
    ∧ (∀ t, alookup "access_token" (usedResult silent forClient).fields = some t →
        get_access_token silent forClient = .ok t)
    ∧ (∀ r, silent = some r → r.fields ≠ [] → usedResult silent forClient = r)
    ∧ (∀ r, silent = some r → r.fields ≠ [] →
        ∀ fc2, get_access_token silent forClient = get_access_token silent fc2) := by
  have hu : get_access_token silent forClient =
      (match alookup "access_token" (usedResult silent forClient).fields with
        | some t => .ok t
        | none => .error (usedResult silent forClient)) := rfl
  refine ⟨?_, ?_, ?_, ?_, ?_⟩
  · rcases h : alookup "access_token" (usedResult silent forClient).fields with _ | t <;>
      simp [hu, h]
  · intro e he
    rcases h : alookup "access_token" (usedResult silent forClient).fields with _ | t <;>
      rw [hu, h] at he <;> simp_all
  · intro t ht
    rw [hu, ht]
  · intro r hr hfld
    subst hr
    simp [usedResult, hfld]
  · intro r hr hfld fc2
    subst hr
    simp [get_access_token, hfld]

/-- C9 witness: a truthy cached silent result holding an access_token is
returned without consulting the client-credentials result. -/
theorem get_access_token_spec_witness :
    get_access_token (some ⟨[("access_token", "tok")]⟩) ⟨[]⟩ = .ok "tok" :=
  (get_access_token_spec (some ⟨[("access_token", "tok")]⟩) ⟨[]⟩).2.2.1 "tok" rfl

/-- C7 counterexample: the claim's iff fails. Here every required field is
supplied by the secret store or by a widget (client_id by the store, the other
three by widgets), yet get_cfg raises: the client-secret lookup raises, the
outer except discards the already-retrieved client_id secret, and the
client_id widget is empty. -/
theorem get_cfg_claim_counterexample :
    (∀ f ∈ cfgFields,
      suppliedEither (fun k => if k = "dataverse-client-id" then some "S" else none)
        (fun w => if w = "client_id" then "" else "W") f = true)
    ∧ get_cfg (fun k => if k = "dataverse-client-id" then some "S" else none)
        (fun w => if w = "client_id" then "" else "W") = Except.error ["client_id"] := by
  constructor
  · decide
  · rfl

/-- C7 (amended): get_cfg fails iff at least one field resolves to an empty
value, where a field's secret-store value is used (with widget fallback on
empty) only when the store supplies all three core keys and every other case
falls back to the widget; the error enumerates every missing field in fixed
order, and on success the resolved values, secret-store values first under
that proviso, are returned. -/
theorem get_cfg_amended (secrets : String → Option String) (widgets : String → String) :
    (get_cfg secrets widgets =
      if cfgMissing secrets widgets = [] then
        Except.ok
          (resolveCfg secrets widgets "dataverse-client-id" "client_id",
            resolveCfg secrets widgets "dataverse-client-secret" "client_secret",
            resolveCfg secrets widgets "dataverse-tenant-id" "tenant_id",
            resolveCfg secrets widgets "dataverse-url" "dataverse_url")
      else Except.error (cfgMissing secrets widgets))
    ∧ ((∃ e, get_cfg secrets widgets = Except.error e) ↔ cfgMissing secrets widgets ≠ [])
    ∧ (∀ sk wk v, coreSecretsPresent secrets = true → secrets sk = some v → v ≠ "" →
        resolveCfg secrets widgets sk wk = v) := by
  have hmain : get_cfg secrets widgets =
      if cfgMissing secrets widgets = [] then
        Except.ok
          (resolveCfg secrets widgets "dataverse-client-id" "client_id",
            resolveCfg secrets widgets "dataverse-client-secret" "client_secret",
            resolveCfg secrets widgets "dataverse-tenant-id" "tenant_id",
            resolveCfg secrets widgets "dataverse-url" "dataverse_url")
      else Except.error (cfgMissing secrets widgets) := by
    rcases h1 : secrets "dataverse-client-id" with _ | c <;>
      rcases h2 : secrets "dataverse-client-secret" with _ | sct <;>
        rcases h3 : secrets "dataverse-tenant-id" with _ | t <;>
          simp [get_cfg, cfgMissing, resolveCfg, coreSecretsPresent, orWidget, h1, h2, h3]
  refine ⟨hmain, ?_, ?_⟩
  · rw [hmain]
    rcases h : cfgMissing secrets widgets with _ | ⟨f, fs⟩ <;> simp
  · intro sk wk v hcore hv hvne
    simp [resolveCfg, hcore, hv, orWidget, hvne]

/-- C7 witness (for the amended claim): with no secrets available and every
widget filled, get_cfg succeeds with the widget values. -/
theorem get_cfg_amended_witness :
    get_cfg (fun _ => none) (fun _ => "W") = Except.ok ("W", "W", "W", "W") := by
  have h := (get_cfg_amended (fun _ => none) (fun _ => "W")).1
  exact h.trans (by rfl)

/-- Lookup misses exactly outside the key list. -/
theorem alookup_eq_none {α : Type} (c : String) (l : List (String × α))
    (h : c ∉ l.map Prod.fst) : alookup c l = none := by
  induction l with
  | nil => rfl
  | cons kv rest ih =>
    obtain ⟨k, v⟩ := kv
    simp only [List.map_cons, List.mem_cons, not_or] at h
    rw [alookup, if_neg (fun hk => h.1 hk.symm)]
    exact ih h.2

/-- Lookup in a column list zipped with cells generated from it recovers the
generator, provided the columns are distinct. -/
theorem alookup_zip_self (cols : List String) (f : String → Cell) (c : String)
    (hnd : cols.Nodup) (hc : c ∈ cols) :
    alookup c (cols.zip (cols.map f)) = some (f c) := by
  induction cols with
  | nil => simp at hc
  | cons k ks ih =>
    rw [List.map_cons, List.zip_cons_cons, alookup]
    by_cases hk : k = c
    · subst hk
      simp
    · rw [if_neg hk]
      exact ih hnd.of_cons ((List.mem_cons.mp hc).resolve_left fun hck => hk hck.symm)

/-- Folding fresh, duplicate-free names into a column list appends them. -/
theorem colUnion_disjoint (ks : List String) :
    ∀ cols, ks.Nodup → (∀ k ∈ ks, k ∉ cols) → colUnion cols ks = cols ++ ks := by
  induction ks with
  | nil =>
    intro cols _ _
    simp [colUnion]
  | cons k ks ih =>
    intro cols hnd hdis
    have h1 : insertCol cols k = cols ++ [k] := by
      simp [insertCol, hdis k (List.mem_cons_self k ks)]
    have h2 : ∀ k' ∈ ks, k' ∉ cols ++ [k] := by
      intro k' hk'
      simp only [List.mem_append, List.mem_singleton, not_or]
      exact ⟨hdis k' (List.mem_cons_of_mem k hk'), fun he =>
        (List.nodup_cons.mp hnd).1 (he ▸ hk')⟩
    calc colUnion cols (k :: ks) = colUnion (insertCol cols k) ks := rfl
      _ = (cols ++ [k]) ++ ks := by rw [h1, ih (cols ++ [k]) hnd.of_cons h2]
      _ = cols ++ k :: ks := by simp

/-- Folding already-present names into a column list changes nothing. -/
theorem colUnion_subset (ks : List String) :
    ∀ cols, (∀ k ∈ ks, k ∈ cols) → colUnion cols ks = cols := by
  induction ks with
  | nil =>
    intro cols _
    simp [colUnion]
  | cons k ks ih =>
    intro cols h
    have h1 : insertCol cols k = cols := by
      simp [insertCol, h k (List.mem_cons_self k ks)]
    calc colUnion cols (k :: ks) = colUnion (insertCol cols k) ks := rfl
      _ = cols := by rw [h1]; exact ih cols (fun k' hk' => h k' (List.mem_cons_of_mem k hk'))

/-- Zipping a list with a map over itself pairs every element with its image. -/
theorem zip_self_map (cols : List String) (f : String → Cell) :
    cols.zip (cols.map f) = cols.map (fun c => (c, f c)) := by
  induction cols with
  | nil => rfl
  | cons k ks ih => simp [ih]

/-- A row generated from a flattened record by lookup is null on every column
outside the record's field names. -/
theorem row_null_outside (a : List (String × Cell)) (cols : List String) :
    ∀ pr ∈ cols.zip (cols.map (fun c => (alookup c a).join)),
      pr.1 ∉ a.map Prod.fst → pr.2 = none := by
  intro pr hpr hnot
  rw [zip_self_map] at hpr
  obtain ⟨c, _, rfl⟩ := List.mem_map.mp hpr
  simp only at hnot ⊢
  rw [alookup_eq_none c a hnot]
  rfl

/-- Normalizing two records with distinct, disjoint flattened field sets gives
the two key lists appended as columns and one lookup-generated row per
record. -/
theorem jsonNormalize_pair (r1 r2 : Rec) (h1 : (flatKeys r1).Nodup)
    (h2 : (flatKeys r2).Nodup) (hd : ∀ c ∈ flatKeys r1, c ∉ flatKeys r2) :
    jsonNormalize [r1, r2] =
      ⟨flatKeys r1 ++ flatKeys r2,
        [(flatKeys r1 ++ flatKeys r2).map (fun c => (alookup c (flattenObj "" r1)).join),
          (flatKeys r1 ++ flatKeys r2).map (fun c => (alookup c (flattenObj "" r2)).join)]⟩ := by
  have e1 : colUnion [] (flatKeys r1) = flatKeys r1 := by
    have h := colUnion_disjoint (flatKeys r1) [] h1 (by simp)
    simpa using h
  have e2 : colUnion (flatKeys r1) (flatKeys r2) = flatKeys r1 ++ flatKeys r2 :=
    colUnion_disjoint (flatKeys r2) (flatKeys r1) h2 (fun k hk hka => hd k hka hk)
  have hcols : List.foldl (fun acc r => colUnion acc (r.map Prod.fst)) []
      ([r1, r2].map (flattenObj "")) = flatKeys r1 ++ flatKeys r2 := by
    simp only [List.map_cons, List.map_nil, List.foldl_cons, List.foldl_nil]
    rw [show (flattenObj "" r1).map Prod.fst = flatKeys r1 from rfl]
    rw [e1]
    rw [show (flattenObj "" r2).map Prod.fst = flatKeys r2 from rfl]
    exact e2
  simp only [jsonNormalize]
  rw [hcols]
  simp

/-- unionByName of a table with itself keeps the columns and doubles the rows,
provided the columns are distinct and every row is generated columnwise. -/
theorem unionByName_self (cols : List String) (rs : List (List Cell)) (hnd : cols.Nodup)
    (hr : ∀ row ∈ rs, ∃ f : String → Cell, row = cols.map f) :
    unionByName ⟨cols, rs⟩ ⟨cols, rs⟩ = ⟨cols, rs ++ rs⟩ := by
  have hc : colUnion cols cols = cols := colUnion_subset cols cols (fun k hk => hk)
  have hrow : ∀ row ∈ rs, cols.map (fun c => (alookup c (cols.zip row)).join) = row := by
    intro row hrowm
    obtain ⟨f, rfl⟩ := hr row hrowm
    refine List.map_congr_left fun c hc => ?_
    rw [alookup_zip_self cols f c hnd hc]
    rfl
  show Table.mk (colUnion cols cols)
      (rs.map (fun row => (colUnion cols cols).map (fun c => (alookup c (cols.zip row)).join)) ++
        rs.map (fun row => (colUnion cols cols).map (fun c => (alookup c (cols.zip row)).join)))
      = _
  rw [hc]
  rw [List.map_congr_left hrow]
  simp

/-- C8: for two records with duplicate-free, disjoint flattened field sets,
the table dataverse_to_spark builds from the stream [r1, r2] has as columns
exactly the union of the two records' flattened field names, and every row of
the table pairs with the columns so that each row is null on every field its
originating record did not supply (each row coming from r1 or from r2). -/
theorem dataverse_to_spark_union_nullfill (r1 r2 : Rec)
    (h1 : (flatKeys r1).Nodup) (h2 : (flatKeys r2).Nodup)
    (hd : ∀ c ∈ flatKeys r1, c ∉ flatKeys r2) :
    (∀ c, c ∈ (dataverse_to_spark [r1, r2] 1000).cols ↔
      (c ∈ flatKeys r1 ∨ c ∈ flatKeys r2))
    ∧ (∀ row ∈ (dataverse_to_spark [r1, r2] 1000).rows,
        (∀ pr ∈ ((dataverse_to_spark [r1, r2] 1000).cols).zip row,
            pr.1 ∉ flatKeys r1 → pr.2 = none)
        ∨ (∀ pr ∈ ((dataverse_to_spark [r1, r2] 1000).cols).zip row,
            pr.1 ∉ flatKeys r2 → pr.2 = none)) := by
  have hnd : (flatKeys r1 ++ flatKeys r2).Nodup :=
    List.Nodup.append h1 h2 (fun c hc1 hc2 => hd c hc1 hc2)
  have hsample : sampleLoop 1000 [r1, r2] 0 = [r1, r2] := by
    simp [sampleLoop]
  have hjn := jsonNormalize_pair r1 r2 h1 h2 hd
  have hspark : dataverse_to_spark [r1, r2] 1000 =
      ⟨flatKeys r1 ++ flatKeys r2,
        [(flatKeys r1 ++ flatKeys r2).map (fun c => (alookup c (flattenObj "" r1)).join),
          (flatKeys r1 ++ flatKeys r2).map (fun c => (alookup c (flattenObj "" r2)).join),
          (flatKeys r1 ++ flatKeys r2).map (fun c => (alookup c (flattenObj "" r1)).join),
          (flatKeys r1 ++ flatKeys r2).map (fun c => (alookup c (flattenObj "" r2)).join)]⟩ := by
    simp only [dataverse_to_spark, hsample, List.isEmpty_cons, Bool.false_eq_true, if_false]
    rw [hjn]
    rw [unionByName_self (flatKeys r1 ++ flatKeys r2) _ hnd ?_]
    · rfl
    · intro row hrow
      simp only [List.mem_cons, List.not_mem_nil, or_false] at hrow
      rcases hrow with rfl | rfl
      · exact ⟨fun c => (alookup c (flattenObj "" r1)).join, rfl⟩
      · exact ⟨fun c => (alookup c (flattenObj "" r2)).join, rfl⟩
  rw [hspark]
  constructor
  · intro c
    simp [List.mem_append]
  · intro row hrow
    simp only [List.mem_cons, List.not_mem_nil, or_false] at hrow
    rcases hrow with rfl | rfl | rfl | rfl
    · exact Or.inl (row_null_outside (flattenObj "" r1) (flatKeys r1 ++ flatKeys r2))
    · exact Or.inr (row_null_outside (flattenObj "" r2) (flatKeys r1 ++ flatKeys r2))
    · exact Or.inl (row_null_outside (flattenObj "" r1) (flatKeys r1 ++ flatKeys r2))
    · exact Or.inr (row_null_outside (flattenObj "" r2) (flatKeys r1 ++ flatKeys r2))

/-- C8 witness: two concrete one-field records with disjoint field names
satisfy the hypotheses, and the theorem gives the column-set union for the
table built from them. -/
theorem dataverse_to_spark_union_nullfill_witness :
    ((flatKeys [("a", JVal.s "1")]).Nodup ∧ (flatKeys [("b", JVal.s "2")]).Nodup ∧
      (∀ c ∈ flatKeys [("a", JVal.s "1")], c ∉ flatKeys [("b", JVal.s "2")]))
    ∧ (∀ c, c ∈ (dataverse_to_spark [[("a", JVal.s "1")], [("b", JVal.s "2")]] 1000).cols ↔
        (c ∈ flatKeys [("a", JVal.s "1")] ∨ c ∈ flatKeys [("b", JVal.s "2")])) := by
  refine ⟨⟨?_, ?_, ?_⟩, ?_⟩
  · simp [flatKeys, flattenObj, keyJoin, coerceScalar]
  · simp [flatKeys, flattenObj, keyJoin, coerceScalar]
  · simp [flatKeys, flattenObj, keyJoin, coerceScalar]
  · exact (dataverse_to_spark_union_nullfill [("a", JVal.s "1")] [("b", JVal.s "2")]
      (by simp [flatKeys, flattenObj, keyJoin, coerceScalar])
      (by simp [flatKeys, flattenObj, keyJoin, coerceScalar])
      (by simp [flatKeys, flattenObj, keyJoin, coerceScalar])).1

end Dataverse
